import Mathlib

/-!
Verification of the core logic of the callus-expo repository:
the leaderboard scoring and ranking pipeline of
supabase/functions/update-leaderboard/index.ts, and the optimistic
like/unlike cache reconciliation of app/(tabs)/home.tsx.

Numbers flowing through the pipeline are modelled as exact rationals
and integers (the JavaScript values involved are small integers and
their quotients).
-/

/-- JavaScript Math.round: rounds to the nearest integer, halves toward
positive infinity. -/
def jsRound (x : ℚ) : ℤ := ⌊x + 1 / 2⌋

/-- calculateScore from update-leaderboard/index.ts: normalizes likes and
views by the corpus maxima (guarding division by zero), combines them with
weights 0.7 and 0.3, scales to 100, rounds, and clamps into [0, 100]. -/
def calculateScore (likes views maxLikes maxViews : ℚ) : ℤ :=
  let normalizedLikes : ℚ := if maxLikes > 0 then likes / maxLikes else 0
  let normalizedViews : ℚ := if maxViews > 0 then views / maxViews else 0
  let score : ℚ := (normalizedLikes * (7 / 10) + normalizedViews * (3 / 10)) * 100
  min (max (jsRound score) 0) 100

theorem jsRound_mono {x y : ℚ} (h : x ≤ y) : jsRound x ≤ jsRound y :=
  Int.floor_le_floor (by linarith)

/-- The score is monotone in the likes and views arguments (the maxima held
fixed); when a maximum is not positive the corresponding normalized value is
the constant 0. -/
theorem calculateScore_mono (l₁ l₂ v₁ v₂ mL mV : ℚ) (hl : l₁ ≤ l₂) (hv : v₁ ≤ v₂) :
    calculateScore l₁ v₁ mL mV ≤ calculateScore l₂ v₂ mL mV := by
  simp only [calculateScore]
  have hnl : (if mL > 0 then l₁ / mL else 0) ≤ (if mL > 0 then l₂ / mL else 0) := by
    split
    · exact (div_le_div_iff_of_pos_right (by assumption)).mpr hl
    · exact le_refl 0
  have hnv : (if mV > 0 then v₁ / mV else 0) ≤ (if mV > 0 then v₂ / mV else 0) := by
    split
    · exact (div_le_div_iff_of_pos_right (by assumption)).mpr hv
    · exact le_refl 0
  have hs : ((if mL > 0 then l₁ / mL else 0) * (7 / 10) +
        (if mV > 0 then v₁ / mV else 0) * (3 / 10)) * 100 ≤
      ((if mL > 0 then l₂ / mL else 0) * (7 / 10) +
        (if mV > 0 then v₂ / mV else 0) * (3 / 10)) * 100 := by
    nlinarith [hnl, hnv]
  have hr := jsRound_mono hs
  omega

/-- C1: for all likes and views at least 0 and maxLikes and maxViews at least
1, the score calculator returns an integer between 0 and 100 inclusive. -/
theorem calculateScore_in_range (likes views maxLikes maxViews : ℚ)
    (hl : 0 ≤ likes) (hv : 0 ≤ views) (hml : 1 ≤ maxLikes) (hmv : 1 ≤ maxViews) :
    0 ≤ calculateScore likes views maxLikes maxViews ∧
      calculateScore likes views maxLikes maxViews ≤ 100 := by
  simp only [calculateScore]
  omega

/-- C1 witness: the range theorem applied at likes 3, views 4, maxLikes 5,
maxViews 6. -/
theorem calculateScore_in_range_witness :
    0 ≤ calculateScore 3 4 5 6 ∧ calculateScore 3 4 5 6 ≤ 100 :=
  calculateScore_in_range 3 4 5 6 (by norm_num) (by norm_num) (by norm_num)
    (by norm_num)

/-- C8 counterexample: with likes -5, views 10, maxLikes 10, maxViews 10 the
calculator returns 0, while replacing the negative likes by zero returns 30:
negative inputs are not treated as zero, only the final clamp applies. -/
theorem calculateScore_negative_counterexample :
    calculateScore (-5) 10 10 10 = 0 ∧ calculateScore 0 10 10 10 = 30 ∧
      calculateScore (-5) 10 10 10 ≠ calculateScore 0 10 10 10 := by
  have h₁ : jsRound (-5 : ℚ) = -5 := by
    unfold jsRound
    rw [Int.floor_eq_iff] <;> norm_num
  have h₂ : jsRound (30 : ℚ) = 30 := by
    unfold jsRound
    rw [Int.floor_eq_iff] <;> norm_num
  refine ⟨?_, ?_, ?_⟩ <;> simp only [calculateScore] <;> norm_num [h₁, h₂]

/-- C8 amended: for every call with a negative likes or views input, the
result is at most (not necessarily equal to) the score computed with that
negative input replaced by zero. -/
theorem calculateScore_neg_le_zeroed (likes views maxLikes maxViews : ℚ) :
    (likes ≤ 0 →
      calculateScore likes views maxLikes maxViews ≤
        calculateScore 0 views maxLikes maxViews) ∧
    (views ≤ 0 →
      calculateScore likes views maxLikes maxViews ≤
        calculateScore likes 0 maxLikes maxViews) := by
  constructor
  · intro h
    exact calculateScore_mono likes 0 views views maxLikes maxViews h (le_refl _)
  · intro h
    exact calculateScore_mono likes likes views 0 maxLikes maxViews (le_refl _) h

/-- C8 witness: the amended bound applied at likes -5 and at views -3. -/
theorem calculateScore_neg_le_zeroed_witness :
    calculateScore (-5) 10 10 10 ≤ calculateScore 0 10 10 10 ∧
      calculateScore 7 (-3) 10 10 ≤ calculateScore 7 0 10 10 :=
  ⟨(calculateScore_neg_le_zeroed (-5) 10 10 10).1 (by norm_num),
   (calculateScore_neg_le_zeroed 7 (-3) 10 10).2 (by norm_num)⟩

/-!
Data model of the leaderboard pipeline.
-/

/-- The users join projection selected by the leaderboard query
(username and avatar_url are nullable columns). -/
structure UsersJoin where
  username : Option String
  avatar_url : Option String
  deriving DecidableEq

/-- A row of the videos table as read by the leaderboard job.  created_at is
not part of the select projection but is the column the query orders by
(descending), so it is carried here to state ordering facts. -/
structure Video where
  id : String
  title : String
  likes : ℤ
  views : ℤ
  user_id : String
  users : Option UsersJoin
  created_at : ℤ
  deriving DecidableEq

/-- JavaScript "x || 0" on a number: replaces a falsy value by 0, which on a
mathematical integer is the identity. -/
def orZero (x : ℤ) : ℤ := if x = 0 then 0 else x

theorem orZero_eq (x : ℤ) : orZero x = x := by
  unfold orZero
  split <;> omega

/-- JavaScript "video.users?.username || 'Anonymous'": a missing join row, a
null username, or an empty string all fall back to "Anonymous". -/
def usernameOrAnon (users : Option UsersJoin) : String :=
  match users with
  | none => "Anonymous"
  | some u =>
    match u.username with
    | none => "Anonymous"
    | some s => if s = "" then "Anonymous" else s

/-- JavaScript "video.users?.avatar_url || null". -/
def avatarOrNull (users : Option UsersJoin) : Option String :=
  match users with
  | none => none
  | some u =>
    match u.avatar_url with
    | none => none
    | some s => if s = "" then none else some s

/-- Math.max over the corpus likes together with 1. -/
def corpusMaxLikes (videos : List Video) : ℤ :=
  videos.foldr (fun v acc => max (orZero v.likes) acc) 1

/-- Math.max over the corpus views together with 1. -/
def corpusMaxViews (videos : List Video) : ℤ :=
  videos.foldr (fun v acc => max (orZero v.views) acc) 1

/-- An element of the videoScores array. -/
structure VideoScore where
  video_id : String
  user_id : String
  title : String
  username : String
  avatar_url : Option String
  score : ℤ
  likes : ℤ
  views : ℤ
  deriving DecidableEq

/-- The body of the videos.map building videoScores. -/
def scoreVideo (mL mV : ℤ) (video : Video) : VideoScore :=
  { video_id := video.id
    user_id := video.user_id
    title := video.title
    username := usernameOrAnon video.users
    avatar_url := avatarOrNull video.users
    score := calculateScore (orZero video.likes : ℤ) (orZero video.views : ℤ) (mL : ℚ) (mV : ℚ)
    likes := orZero video.likes
    views := orZero video.views }

/-- videoScores: every corpus video scored against the corpus maxima. -/
def videoScores (videos : List Video) : List VideoScore :=
  videos.map (scoreVideo (corpusMaxLikes videos) (corpusMaxViews videos))

/-- The per-user aggregate stored in the userBestVideos map. -/
structure UserScore where
  user_id : String
  username : String
  avatar_url : Option String
  best_video_id : String
  best_video_title : String
  score : ℤ
  likes : ℤ
  views : ℤ
  deriving DecidableEq

/-- The UserScore record built from a candidate video inside the reducer. -/
def toUserScore (video : VideoScore) : UserScore :=
  { user_id := video.user_id
    username := video.username
    avatar_url := video.avatar_url
    best_video_id := video.video_id
    best_video_title := video.title
    score := video.score
    likes := video.likes
    views := video.views }

/-- The JS Map keyed by user id, as an insertion-ordered association list. -/
abbrev BestMap := List (String × UserScore)

/-- Map.get: first entry with the requested key. -/
def mapLookup (k : String) : BestMap → Option UserScore
  | [] => none
  | p :: m => if p.1 = k then some p.2 else mapLookup k m

/-- Map.set: overwrite in place when the key exists, append otherwise (a JS
Map preserves insertion order and keeps the original position on update). -/
def mapSet : BestMap → String → UserScore → BestMap
  | [], k, v => [(k, v)]
  | p :: m, k, v => if p.1 = k then (k, v) :: m else p :: mapSet m k v

/-- The replacement test of the reducer: strictly better score, or equal
score with strictly more likes. -/
def replaceCond (existingUser : UserScore) (video : VideoScore) : Prop :=
  video.score > existingUser.score ∨
    (video.score = existingUser.score ∧ video.likes > existingUser.likes)

instance (e : UserScore) (v : VideoScore) : Decidable (replaceCond e v) := by
  unfold replaceCond
  infer_instance

/-- One step of the videoScores.forEach in the reducer: insert an absent
user, replace a present one only when replaceCond holds. -/
def bestVideoStep (m : BestMap) (video : VideoScore) : BestMap :=
  match mapLookup video.user_id m with
  | none => mapSet m video.user_id (toUserScore video)
  | some existingUser =>
    if replaceCond existingUser video then mapSet m video.user_id (toUserScore video)
    else m

/-- userBestVideos: the map after folding the forEach over the scored list. -/
def userBestVideos (scores : List VideoScore) : BestMap :=
  scores.foldl bestVideoStep []

/-- The sort comparator of userRankings as the boolean relation "a sorts no
later than b" (comparator value at most 0): score descending, then likes
descending, then views descending. -/
def rankLE (a b : UserScore) : Bool :=
  if a.score ≠ b.score then decide (b.score < a.score)
  else if a.likes ≠ b.likes then decide (b.likes < a.likes)
  else decide (b.views ≤ a.views)

/-- userRankings: the map values (insertion order) sorted by the comparator;
the JS sort is stable, as is mergeSort. -/
def userRankings (videos : List Video) : List UserScore :=
  ((userBestVideos (videoScores videos)).map Prod.snd).mergeSort rankLE

/-- A persisted row of the leaderboard table. -/
structure LeaderboardEntry where
  video_id : String
  score : ℤ
  rank : ℕ
  created_at : String
  deriving DecidableEq

/-- leaderboardEntries: userRankings.map with rank := index + 1; the now
argument stands for the new Date().toISOString() timestamp. -/
def leaderboardEntriesOf (now : String) (videos : List Video) : List LeaderboardEntry :=
  (userRankings videos).mapIdx fun index user =>
    { video_id := user.best_video_id
      score := user.score
      rank := index + 1
      created_at := now }

/-- The JSON bodies the handler can answer with (status and the fields the
claims are about). -/
inductive JobResponse
  | noVideos (updated : ℕ)
  | success (updated : ℕ) (totalUsers : ℕ)
  | serverError
  deriving DecidableEq

/-- The effect of one run of the Deno.serve handler on the persisted
leaderboard table.  fetchResult is the videos read: error means fetchError
was set (the run throws before touching the table), ok none means a null
data payload.  deleteOk and insertOk model the outcomes of the delete and
insert calls: a failed delete throws leaving the table unchanged, a failed
insert throws after the table was already cleared. -/
def runLeaderboardJob (fetchResult : Except String (Option (List Video)))
    (deleteOk insertOk : Bool) (now : String) (lb : List LeaderboardEntry) :
    List LeaderboardEntry × JobResponse :=
  match fetchResult with
  | .error _ => (lb, .serverError)
  | .ok none => (lb, .noVideos 0)
  | .ok (some videos) =>
    if videos.length = 0 then (lb, .noVideos 0)
    else
      let entries := leaderboardEntriesOf now videos
      if deleteOk then
        if insertOk then
          (entries, .success entries.length (userBestVideos (videoScores videos)).length)
        else ([], .serverError)
      else (lb, .serverError)

/-!
Client-side cache reconciliation (app/(tabs)/home.tsx).

The tanstack query cache for the danceVideos key is modelled as a present
list (a JS undefined cache makes both the optimistic update and the
rollback no-ops, and an empty array is truthy, so the rollback applies to
it as well).
-/

/-- The users row joined into a feed video. -/
structure ClientUser where
  id : String
  username : String
  fullname : String
  email : String
  avatar_url : String
  created_at : String
  deriving DecidableEq

/-- A DanceVideo of the home feed cache; liked_by is an optional column. -/
structure DanceVideo where
  id : String
  title : String
  description : String
  category : String
  video_url : String
  views : ℤ
  likes : ℤ
  liked_by : Option (List String)
  user_id : String
  created_at : String
  user : ClientUser
  deriving DecidableEq

/-- The two actions of the like mutation. -/
inductive LikeAction
  | like
  | dislike
  deriving DecidableEq

/-- The per-video body of the setQueryData updater in likeMutation.onMutate:
guarded optimistic like and unlike. -/
def optimisticVideoUpdate (userId id : String) (action : LikeAction)
    (video : DanceVideo) : DanceVideo :=
  if video.id = id then
    let currentLikedBy := video.liked_by.getD []
    let isCurrentlyLiked := currentLikedBy.contains userId
    match action with
    | .like =>
      if isCurrentlyLiked = false then
        { video with
            likes := video.likes + 1
            liked_by := some (currentLikedBy ++ [userId]) }
      else video
    | .dislike =>
      if isCurrentlyLiked = true then
        { video with
            likes := max 0 (video.likes - 1)
            liked_by := some (currentLikedBy.filter fun uid => uid ≠ userId) }
      else video
  else video

/-- The whole setQueryData updater: the guarded update mapped over the
cached list. -/
def applyOptimistic (userId id : String) (action : LikeAction)
    (old : List DanceVideo) : List DanceVideo :=
  old.map (optimisticVideoUpdate userId id action)

/-- The component state touched by the like mutation: the query cache and
the likedVideos set of video ids. -/
structure HomeState where
  cache : List DanceVideo
  likedVideos : List String
  deriving DecidableEq

/-- The context returned by onMutate for the rollback. -/
structure LikeContext where
  previousVideos : List DanceVideo
  previousLikedState : Bool
  deriving DecidableEq

/-- likeMutation.onMutate for a signed-in user: snapshot the cache and the
liked flag, then apply the optimistic update to the cache and to the
likedVideos set. -/
def likeOnMutate (userId id : String) (action : LikeAction) (st : HomeState) :
    HomeState × LikeContext :=
  let previousVideos := st.cache
  let previousLikedState := st.likedVideos.contains id
  let newCache := applyOptimistic userId id action st.cache
  let newLiked :=
    match action with
    | .like => if st.likedVideos.contains id then st.likedVideos else id :: st.likedVideos
    | .dislike => st.likedVideos.filter fun x => x ≠ id
  ({ cache := newCache, likedVideos := newLiked },
   { previousVideos := previousVideos, previousLikedState := previousLikedState })

/-- likeMutation.onError: restore the snapshotted cache and revert the
likedVideos set according to the stored previous flag. -/
def likeOnError (ctx : LikeContext) (id : String) (st : HomeState) : HomeState :=
  { cache := ctx.previousVideos
    likedVideos :=
      if ctx.previousLikedState then
        if st.likedVideos.contains id then st.likedVideos else id :: st.likedVideos
      else st.likedVideos.filter fun x => x ≠ id }

/-!
Claims about the job as a whole (C4, C5).
-/

/-- C4 counterexample: running the job on an empty corpus with a non-empty
persisted leaderboard reports updated 0 but returns before the publish
step, so the persisted leaderboard keeps its old entry instead of ending up
with no entries. -/
theorem runLeaderboardJob_empty_corpus_counterexample :
    (runLeaderboardJob (.ok (some [])) true true "t"
        [{ video_id := "v1", score := 50, rank := 1, created_at := "t0" }]).1 =
      [{ video_id := "v1", score := 50, rank := 1, created_at := "t0" }] ∧
    (runLeaderboardJob (.ok (some [])) true true "t"
        [{ video_id := "v1", score := 50, rank := 1, created_at := "t0" }]).1 ≠ [] ∧
    (runLeaderboardJob (.ok (some [])) true true "t"
        [{ video_id := "v1", score := 50, rank := 1, created_at := "t0" }]).2 =
      .noVideos 0 := by
  refine ⟨rfl, ?_, rfl⟩
  simp [runLeaderboardJob]

/-- C4 amended: on a corpus with zero videos (an empty list, or a null data
payload) the job does not fail and reports updated 0, but it leaves the
persisted leaderboard unchanged rather than publishing an empty one. -/
theorem runLeaderboardJob_empty_corpus (deleteOk insertOk : Bool) (now : String)
    (lb : List LeaderboardEntry) :
    runLeaderboardJob (.ok (some [])) deleteOk insertOk now lb = (lb, .noVideos 0) ∧
      runLeaderboardJob (.ok none) deleteOk insertOk now lb = (lb, .noVideos 0) :=
  ⟨rfl, rfl⟩

/-- C5: a failed corpus read aborts the run with the persisted leaderboard
untouched; in general the persisted leaderboard changes only in the branch
where the full entry list has been computed from a non-empty corpus and the
delete succeeded (ending as the new entries, or cleared when the subsequent
insert fails). -/
theorem runLeaderboardJob_fetch_error_preserves :
    (∀ (err : String) (deleteOk insertOk : Bool) (now : String)
        (lb : List LeaderboardEntry),
      runLeaderboardJob (.error err) deleteOk insertOk now lb = (lb, .serverError)) ∧
    (∀ (fetchResult : Except String (Option (List Video))) (deleteOk insertOk : Bool)
        (now : String) (lb : List LeaderboardEntry),
      (runLeaderboardJob fetchResult deleteOk insertOk now lb).1 = lb ∨
        ∃ videos, fetchResult = .ok (some videos) ∧ videos.length ≠ 0 ∧
          deleteOk = true ∧
          ((runLeaderboardJob fetchResult deleteOk insertOk now lb).1 =
              leaderboardEntriesOf now videos ∨
            (runLeaderboardJob fetchResult deleteOk insertOk now lb).1 = [])) := by
  constructor
  · intro err deleteOk insertOk now lb
    rfl
  · intro fetchResult deleteOk insertOk now lb
    match fetchResult with
    | .error e => exact Or.inl rfl
    | .ok none => exact Or.inl rfl
    | .ok (some videos) =>
      by_cases h : videos.length = 0
      · left
        simp [runLeaderboardJob, h]
      · cases deleteOk
        · left
          simp [runLeaderboardJob, h]
        · right
          refine ⟨videos, rfl, h, rfl, ?_⟩
          cases insertOk
          · right
            simp [runLeaderboardJob, h]
          · left
            simp [runLeaderboardJob, h]

/-!
Claims about the optimistic like mutation (C6).
-/

/-- C6: after a failed like or dislike mutation settles through onError, the
cached list is exactly the pre-mutation snapshot, so every cached video has
the likes count and liked_by set it had before the optimistic update. -/
theorem likeRollback_restores_cache (userId id : String) (action : LikeAction)
    (st : HomeState) :
    (likeOnError (likeOnMutate userId id action st).2 id
        (likeOnMutate userId id action st).1).cache = st.cache ∧
    ∀ vid : String,
      (((likeOnError (likeOnMutate userId id action st).2 id
            (likeOnMutate userId id action st).1).cache.find? fun v =>
          v.id == vid).map fun v => (v.likes, v.liked_by)) =
        ((st.cache.find? fun v => v.id == vid).map fun v => (v.likes, v.liked_by)) := by
  have h : (likeOnError (likeOnMutate userId id action st).2 id
      (likeOnMutate userId id action st).1).cache = st.cache := rfl
  exact ⟨h, fun vid => by rw [h]⟩

theorem optimisticVideoUpdate_ne (userId id : String) (action : LikeAction)
    (v : DanceVideo) (hid : ¬v.id = id) :
    optimisticVideoUpdate userId id action v = v := by
  simp only [optimisticVideoUpdate]
  simp [hid]

theorem optimisticVideoUpdate_like_noop (userId id : String) (v : DanceVideo)
    (h : v.id = id → (v.liked_by.getD []).contains userId = true) :
    optimisticVideoUpdate userId id .like v = v := by
  by_cases hid : v.id = id
  · simp only [optimisticVideoUpdate, hid, h hid]
    simp
  · exact optimisticVideoUpdate_ne userId id .like v hid

theorem optimisticVideoUpdate_dislike_noop (userId id : String) (v : DanceVideo)
    (h : v.id = id → (v.liked_by.getD []).contains userId = false) :
    optimisticVideoUpdate userId id .dislike v = v := by
  by_cases hid : v.id = id
  · simp only [optimisticVideoUpdate, hid, h hid]
    simp
  · exact optimisticVideoUpdate_ne userId id .dislike v hid

theorem optimisticVideoUpdate_like_apply (userId id : String) (v : DanceVideo)
    (hid : v.id = id) (hl : (v.liked_by.getD []).contains userId = false) :
    optimisticVideoUpdate userId id .like v =
      { v with
          likes := v.likes + 1
          liked_by := some ((v.liked_by.getD []) ++ [userId]) } := by
  simp only [optimisticVideoUpdate, hid, hl]
  simp

theorem optimisticVideoUpdate_dislike_apply (userId id : String) (v : DanceVideo)
    (hid : v.id = id) (hl : (v.liked_by.getD []).contains userId = true) :
    optimisticVideoUpdate userId id .dislike v =
      { v with
          likes := max 0 (v.likes - 1)
          liked_by := some ((v.liked_by.getD []).filter fun uid => uid ≠ userId) } := by
  simp only [optimisticVideoUpdate, hid, hl]
  simp

theorem optimisticVideoUpdate_idem (userId id : String) (action : LikeAction)
    (v : DanceVideo) :
    optimisticVideoUpdate userId id action (optimisticVideoUpdate userId id action v) =
      optimisticVideoUpdate userId id action v := by
  by_cases hid : v.id = id
  · cases action with
    | like =>
      cases hl : (v.liked_by.getD []).contains userId with
      | false =>
        rw [optimisticVideoUpdate_like_apply userId id v hid hl]
        apply optimisticVideoUpdate_like_noop
        intro _
        simp
      | true =>
        rw [optimisticVideoUpdate_like_noop userId id v fun _ => hl]
        exact optimisticVideoUpdate_like_noop userId id v fun _ => hl
    | dislike =>
      cases hl : (v.liked_by.getD []).contains userId with
      | false =>
        rw [optimisticVideoUpdate_dislike_noop userId id v fun _ => hl]
        exact optimisticVideoUpdate_dislike_noop userId id v fun _ => hl
      | true =>
        rw [optimisticVideoUpdate_dislike_apply userId id v hid hl]
        apply optimisticVideoUpdate_dislike_noop
        intro _
        simp
  · rw [optimisticVideoUpdate_ne userId id action v hid,
        optimisticVideoUpdate_ne userId id action v hid]

/-- C7: the optimistic like is a no-op when the user is already in the
cached liked_by set of the targeted video, the optimistic unlike is a no-op
when the user is not, and applying the optimistic update twice in a row
equals applying it once (no double increment). -/
theorem optimisticLike_guard_idem (userId id : String) (cache : List DanceVideo) :
    ((∀ v ∈ cache, v.id = id → (v.liked_by.getD []).contains userId = true) →
      applyOptimistic userId id .like cache = cache) ∧
    ((∀ v ∈ cache, v.id = id → (v.liked_by.getD []).contains userId = false) →
      applyOptimistic userId id .dislike cache = cache) ∧
    ∀ action : LikeAction,
      applyOptimistic userId id action (applyOptimistic userId id action cache) =
        applyOptimistic userId id action cache := by
  refine ⟨?_, ?_, ?_⟩
  · intro h
    unfold applyOptimistic
    conv_rhs => rw [← List.map_id cache]
    exact List.map_congr_left fun v hv =>
      optimisticVideoUpdate_like_noop userId id v (h v hv)
  · intro h
    unfold applyOptimistic
    conv_rhs => rw [← List.map_id cache]
    exact List.map_congr_left fun v hv =>
      optimisticVideoUpdate_dislike_noop userId id v (h v hv)
  · intro action
    unfold applyOptimistic
    rw [List.map_map]
    exact List.map_congr_left fun v _ =>
      optimisticVideoUpdate_idem userId id action v

/-- A concrete feed author for the client-side witnesses. -/
def sampleUser : ClientUser :=
  { id := "owner"
    username := "owner"
    fullname := "Owner"
    email := "owner@example.com"
    avatar_url := "a"
    created_at := "2024" }

/-- A concrete cached video already liked by user u1. -/
def sampleLikedVideo : DanceVideo :=
  { id := "v1"
    title := "t"
    description := "d"
    category := "hiphop"
    video_url := "u"
    views := 3
    likes := 1
    liked_by := some ["u1"]
    user_id := "owner"
    created_at := "2024"
    user := sampleUser }

/-- A concrete cached video not liked by user u1. -/
def sampleUnlikedVideo : DanceVideo :=
  { sampleLikedVideo with likes := 0, liked_by := some [] }

/-- C7 witness: the guard theorem applied to a singleton cache whose video
is already liked (like is a no-op) and to one that is not (unlike is a
no-op). -/
theorem optimisticLike_guard_idem_witness :
    applyOptimistic "u1" "v1" LikeAction.like [sampleLikedVideo] = [sampleLikedVideo] ∧
      applyOptimistic "u1" "v1" LikeAction.dislike [sampleUnlikedVideo] =
        [sampleUnlikedVideo] :=
  ⟨(optimisticLike_guard_idem "u1" "v1" [sampleLikedVideo]).1 (by decide),
   (optimisticLike_guard_idem "u1" "v1" [sampleUnlikedVideo]).2.1 (by decide)⟩

theorem applyOptimistic_nonneg_step (userId id : String) (action : LikeAction)
    (cache : List DanceVideo) (h : ∀ v ∈ cache, 0 ≤ v.likes) :
    ∀ v ∈ applyOptimistic userId id action cache, 0 ≤ v.likes := by
  intro v hv
  unfold applyOptimistic at hv
  rw [List.mem_map] at hv
  obtain ⟨w, hw, rfl⟩ := hv
  have hw0 := h w hw
  by_cases hid : w.id = id
  · cases action with
    | like =>
      cases hl : (w.liked_by.getD []).contains userId with
      | false =>
        rw [optimisticVideoUpdate_like_apply userId id w hid hl]
        simp only []
        omega
      | true =>
        rw [optimisticVideoUpdate_like_noop userId id w fun _ => hl]
        exact hw0
    | dislike =>
      cases hl : (w.liked_by.getD []).contains userId with
      | false =>
        rw [optimisticVideoUpdate_dislike_noop userId id w fun _ => hl]
        exact hw0
      | true =>
        rw [optimisticVideoUpdate_dislike_apply userId id w hid hl]
        simp only []
        omega
  · rw [optimisticVideoUpdate_ne userId id action w hid]
    exact hw0

/-- C10: the optimistic unlike sets the likes count to max 0 (likes - 1),
and any sequence of optimistic like and unlike applications preserves
non-negativity of every cached likes count. -/
theorem optimisticDislike_clamps (userId id : String) :
    (∀ v : DanceVideo, v.id = id → (v.liked_by.getD []).contains userId = true →
      (optimisticVideoUpdate userId id .dislike v).likes = max 0 (v.likes - 1)) ∧
    ∀ (ops : List (String × String × LikeAction)) (cache : List DanceVideo),
      (∀ v ∈ cache, 0 ≤ v.likes) →
      ∀ v ∈ ops.foldl (fun c op => applyOptimistic op.1 op.2.1 op.2.2 c) cache,
        0 ≤ v.likes := by
  constructor
  · intro v hid hl
    rw [optimisticVideoUpdate_dislike_apply userId id v hid hl]
  · intro ops
    induction ops with
    | nil =>
      intro cache h v hv
      exact h v hv
    | cons op rest ih =>
      intro cache h
      simp only [List.foldl_cons]
      exact ih _ (applyOptimistic_nonneg_step op.1 op.2.1 op.2.2 cache h)

/-- C10 witness: the clamp equation at a concrete liked video, and the
non-negativity invariant after a concrete dislike on a concrete cache. -/
theorem optimisticDislike_clamps_witness :
    (optimisticVideoUpdate "u1" "v1" LikeAction.dislike sampleLikedVideo).likes =
      max 0 (sampleLikedVideo.likes - 1) ∧
    0 ≤ (optimisticVideoUpdate "u1" "v1" LikeAction.dislike sampleLikedVideo).likes :=
  ⟨(optimisticDislike_clamps "u1" "v1").1 sampleLikedVideo rfl (by decide),
   (optimisticDislike_clamps "u1" "v1").2 [("u1", "v1", LikeAction.dislike)]
     [sampleLikedVideo] (by decide) _ (by decide)⟩

/-!
Association map lemmas for the reducer (C2, C9).
-/

/-- The key list of the map, in insertion order. -/
def mapKeys (m : BestMap) : List String := m.map Prod.fst

theorem mapLookup_set_self (m : BestMap) (k : String) (v : UserScore) :
    mapLookup k (mapSet m k v) = some v := by
  induction m with
  | nil => simp [mapSet, mapLookup]
  | cons p m ih =>
    by_cases h : p.1 = k
    · simp [mapSet, mapLookup, h]
    · simp [mapSet, mapLookup, h, ih]

theorem mapLookup_set_ne (m : BestMap) (k k' : String) (v : UserScore)
    (h : k' ≠ k) :
    mapLookup k' (mapSet m k v) = mapLookup k' m := by
  induction m with
  | nil => simp [mapSet, mapLookup, Ne.symm h]
  | cons p m ih =>
    by_cases hp : p.1 = k
    · simp [mapSet, mapLookup, hp, Ne.symm h]
    · simp [mapSet, mapLookup, hp, ih]

theorem mem_mapKeys_set (m : BestMap) (k k' : String) (v : UserScore) :
    k' ∈ mapKeys (mapSet m k v) ↔ k' ∈ mapKeys m ∨ k' = k := by
  induction m with
  | nil => simp [mapSet, mapKeys]
  | cons p m ih =>
    by_cases hp : p.1 = k
    · simp [mapSet, mapKeys, hp] at *
      tauto
    · simp [mapSet, mapKeys, hp] at *
      tauto

theorem mapLookup_eq_none (m : BestMap) (k : String) :
    mapLookup k m = none ↔ k ∉ mapKeys m := by
  induction m with
  | nil => simp [mapLookup, mapKeys]
  | cons p m ih =>
    by_cases hp : p.1 = k
    · simp [mapLookup, mapKeys, hp]
    · simp [mapLookup, mapKeys, hp, ih, Ne.symm hp]

theorem nodup_mapKeys_set (m : BestMap) (k : String) (v : UserScore)
    (h : (mapKeys m).Nodup) : (mapKeys (mapSet m k v)).Nodup := by
  induction m with
  | nil => simp [mapSet, mapKeys]
  | cons p m ih =>
    rw [mapKeys, List.map_cons, List.nodup_cons] at h
    by_cases hp : p.1 = k
    · simp only [mapSet, if_pos hp, mapKeys, List.map_cons, List.nodup_cons]
      exact ⟨hp ▸ h.1, h.2⟩
    · simp only [mapSet, if_neg hp, mapKeys, List.map_cons, List.nodup_cons]
      refine ⟨?_, ih h.2⟩
      intro hmem
      rcases (mem_mapKeys_set m k p.1 v).mp hmem with hin | heq
      · exact h.1 hin
      · exact hp heq

theorem mapLookup_step_ne (m : BestMap) (video : VideoScore) (u : String)
    (h : u ≠ video.user_id) :
    mapLookup u (bestVideoStep m video) = mapLookup u m := by
  cases hl : mapLookup video.user_id m with
  | none =>
    simp only [bestVideoStep, hl]
    exact mapLookup_set_ne m video.user_id u (toUserScore video) h
  | some e =>
    simp only [bestVideoStep, hl]
    split
    · exact mapLookup_set_ne m video.user_id u (toUserScore video) h
    · rfl

theorem mem_mapKeys_step (m : BestMap) (video : VideoScore) (k : String) :
    k ∈ mapKeys (bestVideoStep m video) ↔ k ∈ mapKeys m ∨ k = video.user_id := by
  cases hl : mapLookup video.user_id m with
  | none =>
    simp only [bestVideoStep, hl]
    exact mem_mapKeys_set m video.user_id k (toUserScore video)
  | some e =>
    simp only [bestVideoStep, hl]
    split
    · exact mem_mapKeys_set m video.user_id k (toUserScore video)
    · constructor
      · exact Or.inl
      · rintro (hin | rfl)
        · exact hin
        · have hne : mapLookup video.user_id m ≠ none := by rw [hl]; simp
          by_contra hc
          exact hne ((mapLookup_eq_none m video.user_id).mpr hc)

theorem nodup_mapKeys_step (m : BestMap) (video : VideoScore)
    (h : (mapKeys m).Nodup) : (mapKeys (bestVideoStep m video)).Nodup := by
  cases hl : mapLookup video.user_id m with
  | none =>
    simp only [bestVideoStep, hl]
    exact nodup_mapKeys_set m video.user_id (toUserScore video) h
  | some e =>
    simp only [bestVideoStep, hl]
    split
    · exact nodup_mapKeys_set m video.user_id (toUserScore video) h
    · exact h

theorem mem_mapKeys_fold (scores : List VideoScore) :
    ∀ (m : BestMap) (k : String),
      k ∈ mapKeys (scores.foldl bestVideoStep m) ↔
        k ∈ mapKeys m ∨ k ∈ scores.map VideoScore.user_id := by
  induction scores with
  | nil =>
    intro m k
    simp
  | cons v rest ih =>
    intro m k
    simp only [List.foldl_cons, List.map_cons, List.mem_cons]
    rw [ih, mem_mapKeys_step]
    tauto

theorem nodup_mapKeys_fold (scores : List VideoScore) :
    ∀ m : BestMap, (mapKeys m).Nodup → (mapKeys (scores.foldl bestVideoStep m)).Nodup := by
  induction scores with
  | nil =>
    intro m h
    exact h
  | cons v rest ih =>
    intro m h
    exact ih _ (nodup_mapKeys_step m v h)

theorem videoScores_map_user_id (videos : List Video) :
    (videoScores videos).map VideoScore.user_id = videos.map Video.user_id := by
  rw [videoScores, List.map_map]
  rfl

/-- C2: the reducer keeps exactly one entry per distinct user of the corpus
(its key list has no duplicates and contains exactly the corpus user ids),
a candidate replaces the present entry for its user exactly when replaceCond
holds (strictly greater score, or equal score and strictly greater likes),
and replaceCond never consults views, neither of the candidate nor of the
incumbent. -/
theorem userBestVideos_spec :
    (∀ videos : List Video,
      (mapKeys (userBestVideos (videoScores videos))).Nodup ∧
      ∀ k, k ∈ mapKeys (userBestVideos (videoScores videos)) ↔
        k ∈ videos.map Video.user_id) ∧
    (∀ (m : BestMap) (video : VideoScore) (existingUser : UserScore),
      mapLookup video.user_id m = some existingUser →
      bestVideoStep m video =
        if replaceCond existingUser video then
          mapSet m video.user_id (toUserScore video)
        else m) ∧
    (∀ (e : UserScore) (v w : VideoScore), v.score = w.score → v.likes = w.likes →
      (replaceCond e v ↔ replaceCond e w)) ∧
    (∀ (e f : UserScore) (v : VideoScore), e.score = f.score → e.likes = f.likes →
      (replaceCond e v ↔ replaceCond f v)) := by
  refine ⟨?_, ?_, ?_, ?_⟩
  · intro videos
    constructor
    · exact nodup_mapKeys_fold (videoScores videos) [] (by simp [mapKeys])
    · intro k
      rw [userBestVideos, mem_mapKeys_fold, videoScores_map_user_id]
      simp [mapKeys]
  · intro m video existingUser h
    simp only [bestVideoStep, h]
  · intro e v w h1 h2
    unfold replaceCond
    rw [h1, h2]
  · intro e f v h1 h2
    unfold replaceCond
    rw [h1, h2]

/-- The incumbent entry of the C2 witness: score 80 with 5 likes. -/
def bestE0 : UserScore :=
  { user_id := "u1"
    username := "alice"
    avatar_url := none
    best_video_id := "v0"
    best_video_title := "t0"
    score := 80
    likes := 5
    views := 9 }

/-- The candidate of the C2 witness: same score 80 but 10 likes. -/
def candV0 : VideoScore :=
  { video_id := "v9"
    user_id := "u1"
    title := "t9"
    username := "alice"
    avatar_url := none
    score := 80
    likes := 10
    views := 2 }

/-- C2 witness: the step characterization applied to a concrete one-entry
map and a tying candidate with more likes, which therefore replaces. -/
theorem userBestVideos_spec_witness :
    bestVideoStep [("u1", bestE0)] candV0 =
      mapSet [("u1", bestE0)] "u1" (toUserScore candV0) := by
  have h := userBestVideos_spec.2.1 [("u1", bestE0)] candV0 bestE0 rfl
  rw [h, if_pos (by decide : replaceCond bestE0 candV0)]
  rfl

/-!
First-wins behaviour of the reducer on full ties (C9).
-/

theorem bestVideoStep_full_tie (m : BestMap) (video : VideoScore) (e : UserScore)
    (h : mapLookup video.user_id m = some e) (hs : video.score = e.score)
    (hl : video.likes = e.likes) : bestVideoStep m video = m := by
  simp only [bestVideoStep, h]
  rw [if_neg]
  rintro (hgt | ⟨_, hgt⟩) <;> omega

theorem fold_preserves_tied_entry (rest : List VideoScore) :
    ∀ (m : BestMap) (u : String) (e : UserScore), mapLookup u m = some e →
      (∀ v ∈ rest, v.user_id = u → v.score = e.score ∧ v.likes = e.likes) →
      mapLookup u (rest.foldl bestVideoStep m) = some e := by
  induction rest with
  | nil =>
    intro m u e h _
    exact h
  | cons v vs ih =>
    intro m u e h htie
    simp only [List.foldl_cons]
    by_cases hu : v.user_id = u
    · have hlook : mapLookup v.user_id m = some e := by rw [hu]; exact h
      have hte := htie v (List.mem_cons_self v vs) hu
      rw [bestVideoStep_full_tie m v e hlook hte.1 hte.2]
      exact ih m u e h fun w hw hwu => htie w (List.mem_cons_of_mem _ hw) hwu
    · refine ih _ u e ?_ fun w hw hwu => htie w (List.mem_cons_of_mem _ hw) hwu
      rw [mapLookup_step_ne m v u fun h1 => hu h1.symm]
      exact h

theorem userBest_first_of_ties (scores : List VideoScore) :
    ∀ (m : BestMap) (u : String), mapLookup u m = none →
      (∀ v ∈ scores, ∀ w ∈ scores, v.user_id = u → w.user_id = u →
        v.score = w.score ∧ v.likes = w.likes) →
      mapLookup u (scores.foldl bestVideoStep m) =
        (scores.find? fun v => v.user_id == u).map toUserScore := by
  induction scores with
  | nil =>
    intro m u h _
    simpa using h
  | cons v vs ih =>
    intro m u hnone htie
    simp only [List.foldl_cons]
    by_cases hu : v.user_id = u
    · have hpred : ((fun w : VideoScore => w.user_id == u) v) = true := by simp [hu]
      rw [@List.find?_cons_of_pos VideoScore (fun w => w.user_id == u) v vs hpred]
      have hlook : mapLookup v.user_id m = none := by rw [hu]; exact hnone
      have hstep : bestVideoStep m v = mapSet m v.user_id (toUserScore v) := by
        simp only [bestVideoStep, hlook]
      rw [hstep, hu, Option.map_some']
      apply fold_preserves_tied_entry vs (mapSet m u (toUserScore v)) u
        (toUserScore v) (mapLookup_set_self m u (toUserScore v))
      intro w hw hwu
      exact htie w (List.mem_cons_of_mem _ hw) v (List.mem_cons_self _ _) hwu hu
    · have hpred : ¬((fun w : VideoScore => w.user_id == u) v) = true := by simp [hu]
      rw [@List.find?_cons_of_neg VideoScore (fun w => w.user_id == u) v vs hpred]
      refine ih (bestVideoStep m v) u ?_
        fun a ha b hb hau hbu =>
          htie a (List.mem_cons_of_mem _ ha) b (List.mem_cons_of_mem _ hb) hau hbu
      rw [mapLookup_step_ne m v u fun h1 => hu h1.symm]
      exact hnone

theorem find?_desc_max_created (videos : List Video) :
    ∀ (u : String) (v₀ : Video),
      videos.Pairwise (fun a b => b.created_at ≤ a.created_at) →
      (videos.find? fun v => v.user_id == u) = some v₀ →
      ∀ v ∈ videos, v.user_id = u → v.created_at ≤ v₀.created_at := by
  induction videos with
  | nil =>
    intro u v₀ _ h
    cases h
  | cons a rest ih =>
    intro u v₀ hpw hfind v hv hvu
    rw [List.pairwise_cons] at hpw
    by_cases ha : ((fun w : Video => w.user_id == u) a) = true
    · rw [@List.find?_cons_of_pos Video (fun w => w.user_id == u) a rest ha] at hfind
      injection hfind with h0
      subst h0
      rcases List.mem_cons.mp hv with rfl | hv1
      · exact le_refl _
      · exact hpw.1 v hv1
    · rw [@List.find?_cons_of_neg Video (fun w => w.user_id == u) a rest ha] at hfind
      rcases List.mem_cons.mp hv with rfl | hv1
      · exact absurd (by simp [hvu]) ha
      · exact ih u v₀ hpw.2 hfind v hv1 hvu

theorem videoScores_find? (videos : List Video) (u : String) :
    ((videoScores videos).find? fun v => v.user_id == u) =
      ((videos.find? fun v => v.user_id == u)).map
        (scoreVideo (corpusMaxLikes videos) (corpusMaxViews videos)) := by
  rw [videoScores, List.find?_map]
  rfl

/-- C9: the reducer never replaces on a full tie of score and likes; hence
for a user whose corpus videos all tie on score and likes the kept entry is
the first such video of the scored list; the scored list preserves the
fetch order, and when the fetch order is descending by creation time the
first matching video has the maximal creation time among the users
videos. -/
theorem userBestVideos_first_wins :
    (∀ (m : BestMap) (video : VideoScore) (e : UserScore),
      mapLookup video.user_id m = some e → video.score = e.score →
      video.likes = e.likes → bestVideoStep m video = m) ∧
    (∀ (scores : List VideoScore) (u : String),
      (∀ v ∈ scores, ∀ w ∈ scores, v.user_id = u → w.user_id = u →
        v.score = w.score ∧ v.likes = w.likes) →
      mapLookup u (userBestVideos scores) =
        ((scores.find? fun v => v.user_id == u)).map toUserScore) ∧
    (∀ (videos : List Video) (u : String),
      ((videoScores videos).find? fun v => v.user_id == u) =
        ((videos.find? fun v => v.user_id == u)).map
          (scoreVideo (corpusMaxLikes videos) (corpusMaxViews videos))) ∧
    (∀ (videos : List Video) (u : String) (v₀ : Video),
      videos.Pairwise (fun a b => b.created_at ≤ a.created_at) →
      (videos.find? fun v => v.user_id == u) = some v₀ →
      ∀ v ∈ videos, v.user_id = u → v.created_at ≤ v₀.created_at) := by
  refine ⟨bestVideoStep_full_tie, ?_, videoScores_find?, find?_desc_max_created⟩
  intro scores u htie
  exact userBest_first_of_ties scores [] u rfl htie

/-- First fully tying video of the C9 witness. -/
def tieV1 : VideoScore :=
  { video_id := "a"
    user_id := "u1"
    title := "ta"
    username := "x"
    avatar_url := none
    score := 80
    likes := 5
    views := 100 }

/-- Second fully tying video of the C9 witness (differs only in identity
and views). -/
def tieV2 : VideoScore :=
  { tieV1 with video_id := "b", title := "tb", views := 7 }

/-- A corpus row for the C9 witness, most recent first. -/
def srcVidA : Video :=
  { id := "a"
    title := "ta"
    likes := 3
    views := 5
    user_id := "u1"
    users := none
    created_at := 10 }

/-- An older corpus row of the same user. -/
def srcVidB : Video :=
  { srcVidA with id := "b", created_at := 4 }

/-- C9 witness: on two fully tying videos of one user the reducer keeps the
first, and in a creation-descending corpus the first matching row has the
later creation time. -/
theorem userBestVideos_first_wins_witness :
    mapLookup "u1" (userBestVideos [tieV1, tieV2]) = some (toUserScore tieV1) ∧
      srcVidB.created_at ≤ srcVidA.created_at := by
  constructor
  · exact (userBestVideos_first_wins.2.1 [tieV1, tieV2] "u1" (by decide)).trans
      (by decide)
  · exact userBestVideos_first_wins.2.2.2 [srcVidA, srcVidB] "u1" srcVidA
      (by simp [List.pairwise_cons, srcVidA, srcVidB])
      (by decide) srcVidB (by simp) (by decide)

/-!
Sortedness and rank assignment of the assembler (C3).
-/

theorem rankLE_trans (a b c : UserScore) (h1 : rankLE a b = true)
    (h2 : rankLE b c = true) : rankLE a c = true := by
  simp only [rankLE] at h1 h2 ⊢
  split_ifs at h1 h2 ⊢ <;> simp only [decide_eq_true_eq] at h1 h2 ⊢ <;> omega

theorem rankLE_total (a b : UserScore) : rankLE a b || rankLE b a := by
  simp only [rankLE]
  split_ifs <;> simp only [Bool.or_eq_true, decide_eq_true_eq] <;> omega

/-- The descending lexicographic order the spec describes for the ranking:
strictly higher score, or tied score with strictly more likes, or tied
score and likes with at least as many views. -/
def rankedAbove (a b : UserScore) : Prop :=
  b.score < a.score ∨ (a.score = b.score ∧ b.likes < a.likes) ∨
    (a.score = b.score ∧ a.likes = b.likes ∧ b.views ≤ a.views)

theorem rankLE_implies_rankedAbove (a b : UserScore) (h : rankLE a b = true) :
    rankedAbove a b := by
  simp only [rankLE] at h
  unfold rankedAbove
  split_ifs at h <;> simp only [decide_eq_true_eq] at h <;> omega

/-- C3: the assembler output is pairwise ordered by score descending, then
likes descending, then views descending; it is a permutation of the reduced
per-user entries; and the published entries assign each position its
1-based index as rank (ranks 1..n with no gaps, ties included). -/
theorem userRankings_sorted_ranked (now : String) (videos : List Video) :
    (userRankings videos).Pairwise rankedAbove ∧
    (userRankings videos).Perm
      ((userBestVideos (videoScores videos)).map Prod.snd) ∧
    (leaderboardEntriesOf now videos).length = (userRankings videos).length ∧
    ∀ i (h : i < (leaderboardEntriesOf now videos).length),
      ((leaderboardEntriesOf now videos).get ⟨i, h⟩).rank = i + 1 := by
  refine ⟨?_, ?_, ?_, ?_⟩
  · have hs := List.sorted_mergeSort rankLE_trans rankLE_total
      ((userBestVideos (videoScores videos)).map Prod.snd)
    exact List.Pairwise.imp (fun h => rankLE_implies_rankedAbove _ _ h) hs
  · exact List.mergeSort_perm _ rankLE
  · simp [leaderboardEntriesOf]
  · intro i h
    simp [leaderboardEntriesOf, List.get_eq_getElem, List.getElem_mapIdx]

theorem leaderboardEntriesOf_singleton_length :
    (leaderboardEntriesOf "t" [srcVidA]).length = 1 := by
  simp [leaderboardEntriesOf, userRankings, userBestVideos, videoScores,
    bestVideoStep, mapLookup, mapSet]

/-- C3 witness: the rank of the single entry produced from a one-video
corpus is 1. -/
theorem userRankings_sorted_ranked_witness :
    0 < (leaderboardEntriesOf "t" [srcVidA]).length ∧
      ((leaderboardEntriesOf "t" [srcVidA]).get
        ⟨0, lt_of_lt_of_eq Nat.one_pos leaderboardEntriesOf_singleton_length.symm⟩).rank =
        1 :=
  ⟨lt_of_lt_of_eq Nat.one_pos leaderboardEntriesOf_singleton_length.symm,
   (userRankings_sorted_ranked "t" [srcVidA]).2.2.2 0
     (lt_of_lt_of_eq Nat.one_pos leaderboardEntriesOf_singleton_length.symm)⟩
